import Mathlib

/-!
# Verification of the MHIM core (HiCore repository)

Shallow embedding, in Lean 4, of the core functions of
`crslab/model/crs/mhim/mhim.py`: the extension policy of `recommend`,
the self-supervision loss accumulation of `encode_user`, the cold-start
branch of `encode_user`, the session encoder `encode_session`, the motif
adjacency builder `_build_motif_adj_matrix`, the configuration checks of
`MHIMModel.__init__`, and the greedy decoder `decode_greedy`.

Conventions: Python lists of ids become `List ℕ`; real-valued tensors
become `List ℚ` / `Matrix _ _ ℚ` (learned neural components that a claim
does not inspect are abstracted as function parameters, universally
quantified in the theorems); fallible Python code (assertions, shape
errors, unbound locals) becomes `Except String _`.
-/

/-- `MHIMModel.flatten` (mhim.py lines 396-405): flattens a possibly nested
id list into `list(set(...))`.  The Python `set` iteration order is
unspecified; we model it as order of first appearance (`eraseDups` of the
concatenation).  All claims below depend only on membership/emptiness of
the result, never on its order. -/
def flattenPy (inputs : List (List ℕ)) : List ℕ :=
  inputs.flatten.eraseDups

/-- The truncation count of the extension policy in `recommend`
(mhim.py line 527): `min(int(max(2, int(len(related_items[i]) / 4))), len(extended_items[i]))`.
Python `int(n / 4)` on a non-negative `n` is floor division, i.e. `Nat` division. -/
def truncateLen (nRelated nExtended : ℕ) : ℕ :=
  min (max 2 (nRelated / 4)) nExtended

/-- The `Adaptive` branch of the extension policy (mhim.py line 529):
`related_items[i] = related_items[i] + extended_items[i][:truncate]`. -/
def adaptiveExtend (related extended : List ℕ) : List ℕ :=
  related ++ extended.take (truncateLen related.length extended.length)

/-- C1 counterexample: for a session with 9 related items and 4 extension
candidates, the code appends `min(max(2, ⌊9/4⌋), 4) = 2` candidates, while the
claimed formula `min(max(2, ⌈9/4⌉), 4)` gives 3.  The code floors the ratio
(`int(len/4)`), it does not take the ceiling. -/
theorem c1_counterexample :
    (adaptiveExtend (List.range 9) [100, 101, 102, 103]).length = 9 + 2 ∧
      (2 : ℕ) ≠ min (max 2 ((9 + 3) / 4)) 4 := by
  constructor
  · decide
  · decide

/-- C1 amended: in the `Adaptive` strategy, the candidates appended to a
session's related-item list are exactly the first `min(max(2, ⌊|related|/4⌋), |extended|)`
extension candidates, taken deterministically in ranking order; in
particular for `related_items = [5, 9]` with 4 extension candidates exactly
2 candidates are appended (the floor and ceiling formulas agree there). -/
theorem c1_extension_count (related extended : List ℕ) :
    (adaptiveExtend related extended).length
        = related.length + min (max 2 (related.length / 4)) extended.length ∧
      (adaptiveExtend related extended).drop related.length
        = extended.take (truncateLen related.length extended.length) ∧
      truncateLen 2 4 = 2 := by
  refine ⟨?_, ?_, by decide⟩
  · simp [adaptiveExtend, truncateLen]
  · simp [adaptiveExtend]

/-! ## Configuration checks at construction (`MHIMModel.__init__`) -/

/-- The dataset names accepted by the assertion at mhim.py line 98. -/
def validDataset (d : String) : Bool :=
  d = "HReDial" || d = "HTGReDial" || d = "OpenDialKG" || d = "DuRecDial"

/-- The pooling modes accepted by the assertion at mhim.py line 131. -/
def validPooling (p : String) : Bool :=
  p = "Attn" || p = "Mean"

/-- The configuration strings read by `MHIMModel.__init__`. -/
structure ModelConfig where
  dataset : String
  pooling : String
  extension : String
  deriving Repr, DecidableEq

/-- `MHIMModel.__init__` (mhim.py lines 95-139), restricted to its
configuration assertions: the dataset name is asserted at line 98 and the
pooling mode at line 131; the extension strategy (line 134) is stored
without any check.  Construction succeeds iff the two assertions pass. -/
def initModel (cfg : ModelConfig) : Except String ModelConfig :=
  if validDataset cfg.dataset then
    if validPooling cfg.pooling then Except.ok cfg
    else Except.error "AssertionError: pooling"
  else Except.error "AssertionError: dataset"

/-- The per-session extension step of `recommend` (mhim.py lines 526-533):
`Adaptive` appends the first `truncate` candidates, `Random` appends a
sample of the same size (the sampler is injected as `sample`), and any
other strategy hits `assert self.extension_strategy == 'Random'`. -/
def extendSession (strategy : String) (sample : List ℕ → ℕ → List ℕ)
    (related extended : List ℕ) : Except String (List ℕ) :=
  let t := truncateLen related.length extended.length
  if strategy = "Adaptive" then Except.ok (related ++ extended.take t)
  else if strategy = "Random" then Except.ok (related ++ sample extended t)
  else Except.error "AssertionError"

/-- C4 counterexample: a model whose extension strategy is the unsupported
string `"Bogus"` is constructed successfully (no assertion in `__init__`
examines the extension strategy), and the failure only happens later,
inside the extension step of `recommend`.  This refutes the claim that a
model with an invalid extension strategy can never be constructed. -/
theorem c4_counterexample :
    initModel ⟨"HReDial", "Attn", "Bogus"⟩
        = Except.ok ⟨"HReDial", "Attn", "Bogus"⟩ ∧
      extendSession "Bogus" (fun l _ => l) [5] [1, 2, 3]
        = Except.error "AssertionError" := by
  constructor
  · rfl
  · rfl

/-- C4 amended: construction fails immediately for an unsupported dataset
name or an unsupported pooling mode, but an unsupported extension strategy
is accepted at construction for every extension string; it only raises an
assertion error inside `recommend`, at the first batch. -/
theorem c4_config_validation (cfg : ModelConfig) :
    (validDataset cfg.dataset = false →
        initModel cfg = Except.error "AssertionError: dataset") ∧
      (validDataset cfg.dataset = true → validPooling cfg.pooling = false →
        initModel cfg = Except.error "AssertionError: pooling") ∧
      (validDataset cfg.dataset = true → validPooling cfg.pooling = true →
        initModel cfg = Except.ok cfg) ∧
      (∀ sample related extended,
        cfg.extension ≠ "Adaptive" → cfg.extension ≠ "Random" →
        extendSession cfg.extension sample related extended
          = Except.error "AssertionError") := by
  refine ⟨fun hd => ?_, fun hd hp => ?_, fun hd hp => ?_,
    fun sample related extended ha hr => ?_⟩
  · simp [initModel, hd]
  · simp [initModel, hd, hp]
  · simp [initModel, hd, hp]
  · simp [extendSession, ha, hr]

/-- C4 witness: instantiating `c4_config_validation` at the configuration
`⟨"HReDial", "Attn", "Bogus"⟩`: construction succeeds while the recommend
step rejects the strategy. -/
theorem c4_witness :
    initModel ⟨"HReDial", "Attn", "Bogus"⟩
        = Except.ok ⟨"HReDial", "Attn", "Bogus"⟩ ∧
      extendSession "Bogus" (fun l _ => l) [5, 9] [1, 2, 3, 4]
        = Except.error "AssertionError" := by
  have h := c4_config_validation ⟨"HReDial", "Attn", "Bogus"⟩
  exact ⟨h.2.2.1 rfl rfl,
    h.2.2.2 (fun l _ => l) [5, 9] [1, 2, 3, 4] (by decide) (by decide)⟩

/-! ## Batch mutation in `recommend` (mhim.py lines 521-533) -/

/-- The loop `for i in range(len(related_items))` of `recommend`
(mhim.py lines 526-533), which rewrites `related_items[i]` in place.
Indexing `extended_items[i]` past its length is a Python `IndexError`. -/
def extendRelatedLists (strategy : String) (sample : List ℕ → ℕ → List ℕ) :
    List (List ℕ) → List (List ℕ) → Except String (List (List ℕ))
  | [], _ => Except.ok []
  | _ :: _, [] => Except.error "IndexError"
  | r :: rs, e :: es =>
    match extendSession strategy sample r e with
    | Except.error err => Except.error err
    | Except.ok x =>
      match extendRelatedLists strategy sample rs es with
      | Except.error err => Except.error err
      | Except.ok xs => Except.ok (x :: xs)

/-- The `SessionContext` batch record consumed by `recommend`
(mhim.py lines 522-525): `related_entities`, `related_items`,
`context_entities`, `item`, `extended_items`. -/
structure RecBatch where
  relatedEntities : List (List ℕ)
  relatedItems : List (List ℕ)
  contextEntities : List (List ℕ)
  item : List ℕ
  extendedItems : List (List ℕ)
  deriving Repr, DecidableEq

/-- The state of the batch record after `recommend` returns.  In the
Python source `related_items` aliases `batch['related_items']`, and
`related_items[i] = related_items[i] + ...` (lines 529/533) mutates that
shared list, so the returned record is the caller's batch object after
the call. -/
def recommendBatchAfter (strategy : String) (sample : List ℕ → ℕ → List ℕ)
    (b : RecBatch) : Except String RecBatch :=
  (extendRelatedLists strategy sample b.relatedItems b.extendedItems).map
    fun ri => { b with relatedItems := ri }

/-- C9 counterexample: for the batch with `related_items = [[5, 9]]` and
`extended_items = [[1, 2, 3, 4]]` under the `Adaptive` strategy,
`recommend` leaves the batch's `related_items` as `[[5, 9, 1, 2]]`, which
differs from its value `[[5, 9]]` before the call — the batch record is
mutated, not consumed read-only. -/
theorem c9_counterexample :
    recommendBatchAfter "Adaptive" (fun l _ => l)
        ⟨[[7]], [[5, 9]], [[3]], [42], [[1, 2, 3, 4]]⟩
      = Except.ok ⟨[[7]], [[5, 9, 1, 2]], [[3]], [42], [[1, 2, 3, 4]]⟩ ∧
      ([[5, 9, 1, 2]] : List (List ℕ)) ≠ [[5, 9]] := by
  constructor
  · rfl
  · decide

/-- If the per-index extension loop succeeds under `Adaptive`, its result
is the pointwise `adaptiveExtend` of the two lists. -/
theorem extendRelatedLists_adaptive (sample : List ℕ → ℕ → List ℕ) :
    ∀ (rs es xs : List (List ℕ)),
      extendRelatedLists "Adaptive" sample rs es = Except.ok xs →
      xs = List.zipWith adaptiveExtend rs es := by
  intro rs
  induction rs with
  | nil =>
      intro es xs h
      simp only [extendRelatedLists, Except.ok.injEq] at h
      simp [← h]
  | cons r rs ih =>
      intro es xs h
      cases es with
      | nil => simp [extendRelatedLists] at h
      | cons e es =>
          simp only [extendRelatedLists, extendSession, if_true] at h
          cases hrec : extendRelatedLists "Adaptive" sample rs es with
          | error err => rw [hrec] at h; simp at h
          | ok tl =>
              rw [hrec] at h
              simp only [Except.ok.injEq] at h
              rw [← h, ih es tl hrec]
              simp [adaptiveExtend]

/-- C9 amended: `recommend` does mutate the `SessionContext` batch, but in
exactly one place: each `related_items[i]` is replaced in place by itself
plus the chosen extension candidates (under `Adaptive`, the first
`truncateLen` candidates); every other batch field (`related_entities`,
`context_entities`, `item`, `extended_items`) is left identical. -/
theorem c9_recommend_mutation (sample : List ℕ → ℕ → List ℕ)
    (b r : RecBatch)
    (h : recommendBatchAfter "Adaptive" sample b = Except.ok r) :
    r.relatedEntities = b.relatedEntities ∧
      r.contextEntities = b.contextEntities ∧
      r.item = b.item ∧
      r.extendedItems = b.extendedItems ∧
      r.relatedItems = List.zipWith adaptiveExtend b.relatedItems b.extendedItems := by
  unfold recommendBatchAfter at h
  cases hrec : extendRelatedLists "Adaptive" sample b.relatedItems b.extendedItems with
  | error err => rw [hrec] at h; simp [Except.map] at h
  | ok ri =>
      rw [hrec] at h
      simp only [Except.map, Except.ok.injEq] at h
      subst h
      exact ⟨rfl, rfl, rfl, rfl,
        extendRelatedLists_adaptive sample b.relatedItems b.extendedItems ri hrec⟩

/-- C9 witness: `c9_recommend_mutation` applied to the concrete batch with
`related_items = [[5, 9]]` and 4 extension candidates. -/
theorem c9_witness :
    (⟨[[7]], [[5, 9, 1, 2]], [[3]], [42], [[1, 2, 3, 4]]⟩ : RecBatch).relatedItems
      = List.zipWith adaptiveExtend [[5, 9]] [[1, 2, 3, 4]] :=
  (c9_recommend_mutation (fun l _ => l)
    ⟨[[7]], [[5, 9]], [[3]], [42], [[1, 2, 3, 4]]⟩
    ⟨[[7]], [[5, 9, 1, 2]], [[3]], [42], [[1, 2, 3, 4]]⟩ rfl).2.2.2.2

/-! ## Self-supervision loss accumulation in `encode_user`
(mhim.py lines 435-495) and its combination in `recommend` (line 543).

`hierarchical_self_supervision` itself draws fresh random permutations
(`torch.randperm`) on every call, so its scalar value is abstracted as a
parameter `term i v`: the value returned for the `i`-th session of the
batch and view `v` (0 = items, 1 = entities, 2 = words).  What is
embedded concretely is the control flow of `encode_user` that decides
which calls happen and how their results are accumulated. -/

/-- One session of the recommendation batch as consumed by `encode_user`:
`entitys_list` and `items_list` are per-turn nested id lists,
`words_list` (the `batch_context_entities` entry) is a flat id list. -/
structure RecSession where
  entities : List (List ℕ)
  items : List (List ℕ)
  words : List ℕ
  deriving Repr, DecidableEq

/-- The session is on the cold-start path of `encode_user`
(mhim.py line 442) iff its flattened related-item list is empty. -/
def coldStart (s : RecSession) : Bool :=
  flattenPy s.items = []

/-- The self-supervision terms contributed by one non-cold-start session
(mhim.py lines 485-490): the items view is always present there (the
flattened item list is non-empty), the entity and word views contribute
iff their flattened lists are non-empty (`encode_gating` returns `None`
on an empty list, line 498). -/
def viewTerms (term : ℕ → ℕ → ℚ) (i : ℕ) (s : RecSession) : ℚ :=
  term i 0 + (if flattenPy s.entities = [] then 0 else term i 1)
    + (if s.words.eraseDups = [] then 0 else term i 2)

/-- The accumulation loop of `encode_user` (mhim.py lines 437-490):
`ss_loss` starts at `0.0`; a cold-start session leaves it untouched; a
non-cold-start session OVERWRITES it (`ss_loss = ...`, line 486, not
`+=`) with the items term and then adds the entity and word terms. -/
def ssLossGo (term : ℕ → ℕ → ℚ) : ℕ → ℚ → List RecSession → ℚ
  | _, acc, [] => acc
  | i, acc, s :: rest =>
    if coldStart s then ssLossGo term (i + 1) acc rest
    else ssLossGo term (i + 1) (viewTerms term i s) rest

/-- The `ss_loss` value returned by `encode_user` for a batch. -/
def ssLossCode (term : ℕ → ℕ → ℚ) (sessions : List RecSession) : ℚ :=
  ssLossGo term 0 0 sessions

/-- The total loss returned by `recommend` (mhim.py line 543):
`loss = 0.2 * ss_loss + 0.8 * rec_loss`. -/
def recommendLoss (term : ℕ → ℕ → ℚ) (recLoss : ℚ)
    (sessions : List RecSession) : ℚ :=
  (2 / 10) * ssLossCode term sessions + (8 / 10) * recLoss

/-- The self-supervision total as the claim states it (`ssLossClaim term 0`):
the sum, over all sessions of the batch and over each of the three views
that is non-empty for that session, of the view's term. -/
def ssLossClaim (term : ℕ → ℕ → ℚ) : ℕ → List RecSession → ℚ
  | _, [] => 0
  | i, s :: rest =>
    (if flattenPy s.items = [] then 0 else term i 0)
      + (if flattenPy s.entities = [] then 0 else term i 1)
      + (if s.words.eraseDups = [] then 0 else term i 2)
      + ssLossClaim term (i + 1) rest

/-- The last session of the batch that is not on the cold-start path,
together with its position, if any. -/
def lastNonColdIdx : ℕ → List RecSession → Option (ℕ × RecSession)
  | _, [] => none
  | i, s :: rest =>
    match lastNonColdIdx (i + 1) rest with
    | some p => some p
    | none => if coldStart s then none else some (i, s)

/-- C2 counterexample: a batch of two identical non-cold-start sessions
with every self-supervision term equal to 1 and recommendation loss 0.
The code's loss is `0.2 * 3` (only the second session's three view terms
survive the overwrite at mhim.py line 486), while the claimed batch-wide
sum gives `0.2 * 6`. -/
theorem c2_counterexample :
    recommendLoss (fun _ _ => 1) 0 [⟨[[1]], [[2]], [3]⟩, ⟨[[1]], [[2]], [3]⟩]
        = 3 / 5 ∧
      (2 / 10 : ℚ) * ssLossClaim (fun _ _ => 1) 0
          [⟨[[1]], [[2]], [3]⟩, ⟨[[1]], [[2]], [3]⟩] + (8 / 10) * 0
        = 6 / 5 ∧
      (3 / 5 : ℚ) ≠ 6 / 5 := by
  have h1 : flattenPy [[1]] = [1] := rfl
  have h2 : flattenPy [[2]] = [2] := rfl
  have h3 : ([3] : List ℕ).eraseDups = [3] := rfl
  refine ⟨?_, ?_, by norm_num⟩
  · simp only [recommendLoss, ssLossCode, ssLossGo, coldStart, viewTerms,
      h1, h2, h3]
    norm_num
  · simp only [ssLossClaim, h1, h2, h3]
    norm_num

/-- The accumulator semantics of the `encode_user` loop: the final value
is the view-term sum of the last non-cold-start session, or the incoming
accumulator if every remaining session is cold-start. -/
theorem ssLossGo_eq_last (term : ℕ → ℕ → ℚ) :
    ∀ (rest : List RecSession) (i : ℕ) (acc : ℚ),
      ssLossGo term i acc rest
        = (match lastNonColdIdx i rest with
           | none => acc
           | some (j, s) => viewTerms term j s) := by
  intro rest
  induction rest with
  | nil => intro i acc; rfl
  | cons s rest ih =>
      intro i acc
      by_cases hc : coldStart s = true
      · simp only [ssLossGo, lastNonColdIdx, hc, if_true, ih]
        cases lastNonColdIdx (i + 1) rest with
        | none => simp
        | some p => simp
      · simp only [Bool.not_eq_true] at hc
        simp only [ssLossGo, lastNonColdIdx, hc, Bool.false_eq_true,
          if_false, ih]
        cases lastNonColdIdx (i + 1) rest with
        | none => simp
        | some p => simp

/-- C2 amended: the loss returned by `recommend` is
`0.2 * ss_loss + 0.8 * rec_loss`, where `ss_loss` is NOT the batch-wide
sum: because the items-view call overwrites the accumulator
(`ss_loss = ...`, mhim.py line 486), it equals the sum of the non-empty
view terms (items, plus entities and words when non-empty) of the LAST
non-cold-start session of the batch alone, and `0` when every session is
cold-start. -/
theorem c2_ss_loss_last_session (term : ℕ → ℕ → ℚ) (recLoss : ℚ)
    (sessions : List RecSession) :
    recommendLoss term recLoss sessions
      = (2 / 10)
          * (match lastNonColdIdx 0 sessions with
             | none => 0
             | some (j, s) => viewTerms term j s)
        + (8 / 10) * recLoss := by
  unfold recommendLoss ssLossCode
  rw [ssLossGo_eq_last]

/-! ## The cold-start branch of `encode_user` (mhim.py lines 441-453) -/

/-- The per-session body of `encode_user` (mhim.py lines 438-492).
Learned components are injected: `emb` is the row lookup into
`kg_embedding`, `attnPool`/`meanPool` are the `self.kg_attn` /
`torch.mean` poolings of the cold-start word branch, and `heavy` stands
for the whole non-cold-start pipeline (the three `encode_gating`
hypergraph encodings followed by `_attention_and_gating`), applied to the
flattened entity/item/word lists.  The cold-start branch (lines 441-453)
is embedded literally: empty flattened items and empty words give the
zero vector of dimension `user_emb_dim`. -/
def encodeUserSessionRepr (pooling : String) (userEmbDim : ℕ)
    (emb : ℕ → List ℚ) (attnPool meanPool : List (List ℚ) → List ℚ)
    (heavy : List ℕ → List ℕ → List ℕ → List ℚ)
    (entitys items : List (List ℕ)) (words : List ℕ) : List ℚ :=
  if flattenPy items = [] then
    if words = [] then List.replicate userEmbDim 0
    else if pooling = "Attn" then attnPool (words.map emb)
    else meanPool (words.map emb)
  else heavy (flattenPy entitys) (flattenPy items) words.eraseDups

/-- C5: for a session whose flattened related-item list is empty and whose
word/context-entity list is empty, `encode_user` produces exactly the zero
vector of the configured user embedding dimension — for every embedding
table, every pooling configuration and every hypergraph encoder, so in
particular no hypergraph encoding (`heavy`) contributes to the result. -/
theorem c5_cold_start_zero (pooling : String) (userEmbDim : ℕ)
    (emb : ℕ → List ℚ) (attnPool meanPool : List (List ℚ) → List ℚ)
    (heavy : List ℕ → List ℕ → List ℕ → List ℚ)
    (entitys items : List (List ℕ)) (words : List ℕ)
    (hitems : flattenPy items = []) (hwords : words = []) :
    encodeUserSessionRepr pooling userEmbDim emb attnPool meanPool heavy
        entitys items words
      = List.replicate userEmbDim 0 := by
  simp [encodeUserSessionRepr, hitems, hwords]

/-- C5 witness: `c5_cold_start_zero` applied at dimension 3, with a batch
entry whose item turns are all empty and whose word list is empty. -/
theorem c5_witness :
    encodeUserSessionRepr "Attn" 3 (fun _ => [7]) (fun _ => [8])
        (fun _ => [9]) (fun _ _ _ => [10]) [[4]] [[], []] []
      = List.replicate 3 0 :=
  c5_cold_start_zero "Attn" 3 (fun _ => [7]) (fun _ => [8]) (fun _ => [9])
    (fun _ _ _ => [10]) [[4]] [[], []] [] (by decide) rfl

/-! ## The non-cold-start branch of `encode_session`
(mhim.py lines 594-663) -/

/-- The per-session loop of `encode_session` (mhim.py lines 599-646).
A cold-start session (empty flattened related items) yields `None` or the
raw context-entity embeddings (lines 602-609).  Any other session reaches
lines 620-622, which read the names `entitys_list`, `items_list` and
`words_list`; those names are assigned nowhere earlier in
`encode_session` (its parameters are `batch_related_items` and
`batch_context_entities`, its loop variables `session_related_items` and
`context_entities`), so CPython raises `UnboundLocalError` there; the
embedding returns that error. -/
def encodeSessionReprs (emb : ℕ → List ℚ) :
    List (List (List ℕ)) → List (List ℕ) →
      Except String (List (Option (List (List ℚ))))
  | [], _ => Except.ok []
  | _ :: _, [] => Except.ok []
  | items :: restItems, ctx :: restCtx =>
    if flattenPy items = [] then
      match encodeSessionReprs emb restItems restCtx with
      | Except.error err => Except.error err
      | Except.ok tail =>
          Except.ok ((if ctx = [] then none else some (ctx.map emb)) :: tail)
    else Except.error "UnboundLocalError: entitys_list"

/-- C3: whenever some session of the batch has a non-empty flattened
related-item list, `encode_session` raises the unbound-variable error of
mhim.py line 620 instead of returning session representations, for every
embedding table. -/
theorem c3_encode_session_unbound (emb : ℕ → List ℚ) :
    ∀ (batchItems : List (List (List ℕ))) (batchCtx : List (List ℕ)),
      (∃ p ∈ batchItems.zip batchCtx, flattenPy p.1 ≠ []) →
      encodeSessionReprs emb batchItems batchCtx
        = Except.error "UnboundLocalError: entitys_list" := by
  intro batchItems
  induction batchItems with
  | nil => intro batchCtx h; simp at h
  | cons items restItems ih =>
      intro batchCtx h
      cases batchCtx with
      | nil => simp at h
      | cons ctx restCtx =>
          by_cases hcold : flattenPy items = []
          · simp only [List.zip_cons_cons, List.mem_cons] at h
            obtain ⟨p, hp, hne⟩ := h
            rcases hp with rfl | hp
            · exact absurd hcold hne
            · have := ih restCtx ⟨p, hp, hne⟩
              simp [encodeSessionReprs, hcold, this]
          · simp [encodeSessionReprs, hcold]

/-- C3 witness: a batch whose second session has related items `[5]`
makes `encode_session` fail with the unbound-variable error. -/
theorem c3_witness :
    encodeSessionReprs (fun _ => [1]) [[[]], [[5]]] [[2], [3]]
      = Except.error "UnboundLocalError: entitys_list" :=
  c3_encode_session_unbound (fun _ => [1]) [[[]], [[5]]] [[2], [3]]
    ⟨([[5]], [3]), by decide, by decide⟩

/-! ## Motif decomposition (`_build_motif_adj_matrix`, mhim.py lines 215-245):
the matrix algebra of `B`, `U` and the seven structural motif matrices
`A1..A7`, over exact rationals. -/

open scoped Matrix

/-- `B = S.multiply(S.T)` (mhim.py line 218): the elementwise product of
the relation matrix with its transpose. -/
def motifB {n : ℕ} (S : Matrix (Fin n) (Fin n) ℚ) : Matrix (Fin n) (Fin n) ℚ :=
  Matrix.hadamard S Sᵀ

/-- `U = S - B` (mhim.py line 219). -/
def motifU {n : ℕ} (S : Matrix (Fin n) (Fin n) ℚ) : Matrix (Fin n) (Fin n) ℚ :=
  S - motifB S

/-- `C1 = (U.dot(U)).multiply(U.T)` (mhim.py line 220). -/
def motifC1 {n : ℕ} (S : Matrix (Fin n) (Fin n) ℚ) : Matrix (Fin n) (Fin n) ℚ :=
  Matrix.hadamard (motifU S * motifU S) (motifU S)ᵀ

/-- `A1 = C1 + C1.T` (mhim.py line 221). -/
def motifA1 {n : ℕ} (S : Matrix (Fin n) (Fin n) ℚ) : Matrix (Fin n) (Fin n) ℚ :=
  motifC1 S + (motifC1 S)ᵀ

/-- `C2 = (B.dot(U)).multiply(U.T) + (U.dot(B)).multiply(U.T) + (U.dot(U)).multiply(B)`
(mhim.py line 222). -/
def motifC2 {n : ℕ} (S : Matrix (Fin n) (Fin n) ℚ) : Matrix (Fin n) (Fin n) ℚ :=
  Matrix.hadamard (motifB S * motifU S) (motifU S)ᵀ
    + Matrix.hadamard (motifU S * motifB S) (motifU S)ᵀ
    + Matrix.hadamard (motifU S * motifU S) (motifB S)

/-- `A2 = C2 + C2.T` (mhim.py line 223). -/
def motifA2 {n : ℕ} (S : Matrix (Fin n) (Fin n) ℚ) : Matrix (Fin n) (Fin n) ℚ :=
  motifC2 S + (motifC2 S)ᵀ

/-- `C3 = (B.dot(B)).multiply(U) + (B.dot(U)).multiply(B) + (U.dot(B)).multiply(B)`
(mhim.py line 224). -/
def motifC3 {n : ℕ} (S : Matrix (Fin n) (Fin n) ℚ) : Matrix (Fin n) (Fin n) ℚ :=
  Matrix.hadamard (motifB S * motifB S) (motifU S)
    + Matrix.hadamard (motifB S * motifU S) (motifB S)
    + Matrix.hadamard (motifU S * motifB S) (motifB S)

/-- `A3 = C3 + C3.T` (mhim.py line 225). -/
def motifA3 {n : ℕ} (S : Matrix (Fin n) (Fin n) ℚ) : Matrix (Fin n) (Fin n) ℚ :=
  motifC3 S + (motifC3 S)ᵀ

/-- `A4 = (B.dot(B)).multiply(B)` (mhim.py line 226). -/
def motifA4 {n : ℕ} (S : Matrix (Fin n) (Fin n) ℚ) : Matrix (Fin n) (Fin n) ℚ :=
  Matrix.hadamard (motifB S * motifB S) (motifB S)

/-- `C5 = (U.dot(U)).multiply(U) + (U.dot(U.T)).multiply(U) + (U.T.dot(U)).multiply(U)`
(mhim.py line 227). -/
def motifC5 {n : ℕ} (S : Matrix (Fin n) (Fin n) ℚ) : Matrix (Fin n) (Fin n) ℚ :=
  Matrix.hadamard (motifU S * motifU S) (motifU S)
    + Matrix.hadamard (motifU S * (motifU S)ᵀ) (motifU S)
    + Matrix.hadamard ((motifU S)ᵀ * motifU S) (motifU S)

/-- `A5 = C5 + C5.T` (mhim.py line 228). -/
def motifA5 {n : ℕ} (S : Matrix (Fin n) (Fin n) ℚ) : Matrix (Fin n) (Fin n) ℚ :=
  motifC5 S + (motifC5 S)ᵀ

/-- `A6 = (U.dot(B)).multiply(U) + (B.dot(U.T)).multiply(U.T) + (U.T.dot(U)).multiply(B)`
(mhim.py line 229). -/
def motifA6 {n : ℕ} (S : Matrix (Fin n) (Fin n) ℚ) : Matrix (Fin n) (Fin n) ℚ :=
  Matrix.hadamard (motifU S * motifB S) (motifU S)
    + Matrix.hadamard (motifB S * (motifU S)ᵀ) ((motifU S)ᵀ)
    + Matrix.hadamard ((motifU S)ᵀ * motifU S) (motifB S)

/-- `A7 = (U.T.dot(B)).multiply(U.T) + (B.dot(U)).multiply(U) + (U.dot(U.T)).multiply(B)`
(mhim.py line 230). -/
def motifA7 {n : ℕ} (S : Matrix (Fin n) (Fin n) ℚ) : Matrix (Fin n) (Fin n) ℚ :=
  Matrix.hadamard ((motifU S)ᵀ * motifB S) ((motifU S)ᵀ)
    + Matrix.hadamard (motifB S * motifU S) (motifU S)
    + Matrix.hadamard (motifU S * (motifU S)ᵀ) (motifB S)

/-- Transposition distributes over the elementwise product. -/
theorem hadamard_tr {n : ℕ} (M N : Matrix (Fin n) (Fin n) ℚ) :
    (Matrix.hadamard M N)ᵀ = Matrix.hadamard Mᵀ Nᵀ := by
  ext i j
  simp [Matrix.hadamard_apply]

/-- `B` is symmetric for every relation matrix. -/
theorem motifB_tr {n : ℕ} (S : Matrix (Fin n) (Fin n) ℚ) :
    (motifB S)ᵀ = motifB S := by
  unfold motifB
  rw [hadamard_tr, Matrix.transpose_transpose, Matrix.hadamard_comm]

/-- A symmetric rational matrix is of the form `C + Cᵀ` (take `C = M/2`). -/
theorem symm_eq_add_tr {n : ℕ} (M : Matrix (Fin n) (Fin n) ℚ)
    (h : Mᵀ = M) : ∃ C, M = C + Cᵀ := by
  refine ⟨(2 : ℚ)⁻¹ • M, ?_⟩
  rw [Matrix.transpose_smul, h, ← add_smul]
  norm_num

/-- Pointwise form of `U`: `U[i,j] = S[i,j] - S[i,j] * S[j,i]`. -/
theorem motifU_apply {n : ℕ} (S : Matrix (Fin n) (Fin n) ℚ) (i j : Fin n) :
    motifU S i j = S i j - S i j * S j i := by
  simp [motifU, motifB, Matrix.sub_apply, Matrix.hadamard_apply,
    Matrix.transpose_apply]

/-- C6 counterexample: the non-negative relation matrix `S = [[0,2],[2,0]]`
has `U = S - S⊙Sᵗ = [[0,-2],[-2,0]]`, in which `U[0,1]` and `U[1,0]` are
both non-zero — the claimed zero overlap of `U` with the support of its
transpose fails for weighted (non-0/1) matrices. -/
theorem c6_counterexample :
    motifU !![(0 : ℚ), 2; 2, 0] 0 1 ≠ 0 ∧
      motifU !![(0 : ℚ), 2; 2, 0] 1 0 ≠ 0 ∧
      (0 : ℚ) ≤ !![(0 : ℚ), 2; 2, 0] 0 0 ∧
      (0 : ℚ) ≤ !![(0 : ℚ), 2; 2, 0] 0 1 ∧
      (0 : ℚ) ≤ !![(0 : ℚ), 2; 2, 0] 1 0 ∧
      (0 : ℚ) ≤ !![(0 : ℚ), 2; 2, 0] 1 1 := by
  refine ⟨?_, ?_, by norm_num, by norm_num, by norm_num, by norm_num⟩
  · rw [motifU_apply]
    norm_num
  · rw [motifU_apply]
    norm_num

/-- C6 amended: `B = S ⊙ Sᵗ` is symmetric for every relation matrix, and
the zero overlap of `U = S - B` with the support of its own transpose
holds for 0/1 (binary) relation matrices: if every entry of `S` is 0 or
1, no pair of positions `(i,j)`, `(j,i)` is non-zero in `U` at both.  For
general non-negative weighted matrices the overlap property fails (see
the counterexample). -/
theorem c6_motif_decomposition {n : ℕ} (S : Matrix (Fin n) (Fin n) ℚ) :
    (motifB S)ᵀ = motifB S ∧
      ((∀ i j, S i j = 0 ∨ S i j = 1) →
        ∀ i j, motifU S i j ≠ 0 → motifU S j i = 0) := by
  refine ⟨motifB_tr S, fun hbin i j hne => ?_⟩
  have hij := hbin i j
  have hji := hbin j i
  simp only [motifU, motifB, Matrix.sub_apply, Matrix.hadamard_apply,
    Matrix.transpose_apply] at hne ⊢
  rcases hij with h | h <;> rcases hji with h2 | h2 <;>
    simp [h, h2] at hne ⊢

/-- C6 witness: `c6_motif_decomposition` applied to the binary matrix
`[[0,1],[0,0]]`, whose `U` has `U[0,1] = 1 ≠ 0` and hence `U[1,0] = 0`. -/
theorem c6_witness :
    (motifB !![(0 : ℚ), 1; 0, 0])ᵀ = motifB !![(0 : ℚ), 1; 0, 0] ∧
      motifU !![(0 : ℚ), 1; 0, 0] 1 0 = 0 := by
  have h := c6_motif_decomposition !![(0 : ℚ), 1; 0, 0]
  refine ⟨h.1, h.2 ?_ 0 1 ?_⟩
  · intro i j
    fin_cases i <;> fin_cases j <;> norm_num
  · rw [motifU_apply]
    norm_num

/-- C7: each of the seven structural motif matrices `A1..A7` computed by
`_build_motif_adj_matrix` is symmetric, and hence (over ℚ) of the form
`C + Cᵗ`: `A1, A2, A3, A5` are literally computed as `C_i + C_iᵗ`, and
`A4, A6, A7` are symmetric because `B` is symmetric and their summands
exchange under transposition. -/
theorem c7_motif_symmetry {n : ℕ} (S : Matrix (Fin n) (Fin n) ℚ) :
    ((motifA1 S)ᵀ = motifA1 S ∧ ∃ C, motifA1 S = C + Cᵀ) ∧
      ((motifA2 S)ᵀ = motifA2 S ∧ ∃ C, motifA2 S = C + Cᵀ) ∧
      ((motifA3 S)ᵀ = motifA3 S ∧ ∃ C, motifA3 S = C + Cᵀ) ∧
      ((motifA4 S)ᵀ = motifA4 S ∧ ∃ C, motifA4 S = C + Cᵀ) ∧
      ((motifA5 S)ᵀ = motifA5 S ∧ ∃ C, motifA5 S = C + Cᵀ) ∧
      ((motifA6 S)ᵀ = motifA6 S ∧ ∃ C, motifA6 S = C + Cᵀ) ∧
      ((motifA7 S)ᵀ = motifA7 S ∧ ∃ C, motifA7 S = C + Cᵀ) := by
  have h1 : (motifA1 S)ᵀ = motifA1 S := by
    simp only [motifA1, motifC1, Matrix.transpose_add, hadamard_tr,
      Matrix.transpose_mul, Matrix.transpose_transpose, motifB_tr]
    abel
  have h2 : (motifA2 S)ᵀ = motifA2 S := by
    simp only [motifA2, motifC2, Matrix.transpose_add, hadamard_tr,
      Matrix.transpose_mul, Matrix.transpose_transpose, motifB_tr]
    abel
  have h3 : (motifA3 S)ᵀ = motifA3 S := by
    simp only [motifA3, motifC3, Matrix.transpose_add, hadamard_tr,
      Matrix.transpose_mul, Matrix.transpose_transpose, motifB_tr]
    abel
  have h4 : (motifA4 S)ᵀ = motifA4 S := by
    simp only [motifA4, hadamard_tr, Matrix.transpose_mul, motifB_tr]
  have h5 : (motifA5 S)ᵀ = motifA5 S := by
    simp only [motifA5, motifC5, Matrix.transpose_add, hadamard_tr,
      Matrix.transpose_mul, Matrix.transpose_transpose, motifB_tr]
    abel
  have h6 : (motifA6 S)ᵀ = motifA6 S := by
    simp only [motifA6, Matrix.transpose_add, hadamard_tr,
      Matrix.transpose_mul, Matrix.transpose_transpose, motifB_tr]
    abel
  have h7 : (motifA7 S)ᵀ = motifA7 S := by
    simp only [motifA7, Matrix.transpose_add, hadamard_tr,
      Matrix.transpose_mul, Matrix.transpose_transpose, motifB_tr]
    abel
  exact ⟨⟨h1, symm_eq_add_tr _ h1⟩, ⟨h2, symm_eq_add_tr _ h2⟩,
    ⟨h3, symm_eq_add_tr _ h3⟩, ⟨h4, symm_eq_add_tr _ h4⟩,
    ⟨h5, symm_eq_add_tr _ h5⟩, ⟨h6, symm_eq_add_tr _ h6⟩,
    ⟨h7, symm_eq_add_tr _ h7⟩⟩

/-! ## Shape behaviour of `_build_motif_adj_matrix`
(mhim.py lines 215-245).

The claims about error ordering require tracking how many sparse matrix
products have been computed when an error is raised, so this second
embedding of the builder works on shape-carrying matrices inside a state
monad whose state counts completed `dot` products.  scipy raises
`ValueError: inconsistent shapes` when `multiply`/`-` get operands of
different shapes and a dimension mismatch error when `dot` gets
incompatible operands; the builder itself contains no shape check of its
own. -/

/-- A scipy sparse matrix: a shape plus an entry function. -/
structure UMat where
  rows : ℕ
  cols : ℕ
  entry : ℕ → ℕ → ℚ

/-- Computations over sparse matrices, counting completed `dot` products
in the state and aborting on shape errors (the count on abort is the
number of products computed before the error). -/
def MotifM (α : Type) : Type :=
  ℕ → ℕ × Except String α

instance : Monad MotifM where
  pure a := fun c => (c, Except.ok a)
  bind m f := fun c =>
    match m c with
    | (k, Except.ok a) => f a k
    | (k, Except.error e) => (k, Except.error e)

/-- `.T` on a scipy sparse matrix. -/
def trM (A : UMat) : UMat :=
  ⟨A.cols, A.rows, fun i j => A.entry j i⟩

/-- `.multiply` — the elementwise (Hadamard) product; mismatched shapes
raise `ValueError: inconsistent shapes`. -/
def mulHadM (A B : UMat) : MotifM UMat := fun c =>
  if A.rows = B.rows ∧ A.cols = B.cols then
    (c, Except.ok ⟨A.rows, A.cols, fun i j => A.entry i j * B.entry i j⟩)
  else (c, Except.error "inconsistent shapes")

/-- `.dot` — the sparse matrix product; this is the operation counted.
Incompatible inner dimensions raise a dimension mismatch error. -/
def dotM (A B : UMat) : MotifM UMat := fun c =>
  if A.cols = B.rows then
    (c + 1, Except.ok ⟨A.rows, B.cols,
      fun i j => ∑ k ∈ Finset.range A.cols, A.entry i k * B.entry k j⟩)
  else (c, Except.error "dimension mismatch")

/-- Elementwise subtraction (`S - B`); mismatched shapes raise. -/
def subM (A B : UMat) : MotifM UMat := fun c =>
  if A.rows = B.rows ∧ A.cols = B.cols then
    (c, Except.ok ⟨A.rows, A.cols, fun i j => A.entry i j - B.entry i j⟩)
  else (c, Except.error "inconsistent shapes")

/-- Elementwise addition (`C + C.T`, `sum([...])`); mismatched shapes raise. -/
def addM (A B : UMat) : MotifM UMat := fun c =>
  if A.rows = B.rows ∧ A.cols = B.cols then
    (c, Except.ok ⟨A.rows, A.cols, fun i j => A.entry i j + B.entry i j⟩)
  else (c, Except.error "inconsistent shapes")

/-- Row normalization (mhim.py lines 236/238/241):
`H.multiply(1.0 / (H.sum(axis=1) + 1e-7).reshape(-1, 1))`. -/
def rowNormM (A : UMat) : UMat :=
  ⟨A.rows, A.cols, fun i j =>
    A.entry i j
      * (1 / ((∑ k ∈ Finset.range A.cols, A.entry i k) + 1 / 10000000))⟩

/-- The purposive self-threshold (mhim.py line 240):
`H_p.multiply(H_p > 1)`. -/
def threshM (A : UMat) : UMat :=
  ⟨A.rows, A.cols, fun i j =>
    A.entry i j * (if 1 < A.entry i j then 1 else 0)⟩

/-- `mat2adj` (mhim.py lines 247-258): the 0/1 adjacency of the stored
entries with weight at least `0.5`. -/
def mat2adjM (A : UMat) : ℕ → ℕ → Bool := fun i j =>
  decide (i < A.rows) && decide (j < A.cols)
    && decide ((1 / 2 : ℚ) ≤ A.entry i j)

/-- `_build_motif_adj_matrix` (mhim.py lines 215-245), operation by
operation in source order, in the product-counting monad. -/
def buildMotifAdj (S Y : UMat) :
    MotifM ((ℕ → ℕ → Bool) × (ℕ → ℕ → Bool) × (ℕ → ℕ → Bool)) := do
  let B ← mulHadM S (trM S)
  let U ← subM S B
  let t1 ← dotM U U
  let C1 ← mulHadM t1 (trM U)
  let A1 ← addM C1 (trM C1)
  let t2 ← dotM B U
  let p1 ← mulHadM t2 (trM U)
  let t3 ← dotM U B
  let p2 ← mulHadM t3 (trM U)
  let t4 ← dotM U U
  let p3 ← mulHadM t4 B
  let s1 ← addM p1 p2
  let C2 ← addM s1 p3
  let A2 ← addM C2 (trM C2)
  let t5 ← dotM B B
  let q1 ← mulHadM t5 U
  let t6 ← dotM B U
  let q2 ← mulHadM t6 B
  let t7 ← dotM U B
  let q3 ← mulHadM t7 B
  let s2 ← addM q1 q2
  let C3 ← addM s2 q3
  let A3 ← addM C3 (trM C3)
  let t8 ← dotM B B
  let A4 ← mulHadM t8 B
  let t9 ← dotM U U
  let r1 ← mulHadM t9 U
  let t10 ← dotM U (trM U)
  let r2 ← mulHadM t10 U
  let t11 ← dotM (trM U) U
  let r3 ← mulHadM t11 U
  let s3 ← addM r1 r2
  let C5 ← addM s3 r3
  let A5 ← addM C5 (trM C5)
  let t12 ← dotM U B
  let u1 ← mulHadM t12 U
  let t13 ← dotM B (trM U)
  let u2 ← mulHadM t13 (trM U)
  let t14 ← dotM (trM U) U
  let u3 ← mulHadM t14 B
  let s4 ← addM u1 u2
  let A6 ← addM s4 u3
  let t15 ← dotM (trM U) B
  let v1 ← mulHadM t15 (trM U)
  let t16 ← dotM B U
  let v2 ← mulHadM t16 U
  let t17 ← dotM U (trM U)
  let v3 ← mulHadM t17 B
  let s5 ← addM v1 v2
  let A7 ← addM s5 v3
  let t18 ← dotM Y (trM Y)
  let A8 ← mulHadM t18 B
  let t19 ← dotM Y (trM Y)
  let A9p ← mulHadM t19 U
  let A9 ← addM A9p (trM A9p)
  let t20 ← dotM Y (trM Y)
  let d1 ← subM t20 A8
  let A10 ← subM d1 A9
  let w1 ← addM A1 A2
  let w2 ← addM w1 A3
  let w3 ← addM w2 A4
  let w4 ← addM w3 A5
  let w5 ← addM w4 A6
  let hs ← addM w5 A7
  let hsN := rowNormM hs
  let hj ← addM A8 A9
  let hjN := rowNormM hj
  let hpN := rowNormM (threshM A10)
  pure (mat2adjM hsN, mat2adjM hjN, mat2adjM hpN)

/-- C8 counterexample: for a square 2×2 relation matrix and a 3×2
interaction matrix (a shape mismatch between the two inputs), the builder
does not fail before any product: it computes 18 sparse matrix products
(the 17 structural motif products and `Y.dot(Y.T)`) and only then raises
the library's inconsistent-shapes error, at `A8 = (Y.dot(Y.T)).multiply(B)`.
There is no dedicated `ShapeMismatch` pre-check. -/
theorem c8_counterexample :
    buildMotifAdj ⟨2, 2, fun _ _ => 1⟩ ⟨3, 2, fun _ _ => 1⟩ 0
        = (18, Except.error "inconsistent shapes") ∧
      (0 : ℕ) < 18 := by
  exact ⟨rfl, by norm_num⟩

/-- C8 amended: the builder performs no shape pre-validation; malformed
inputs surface as the sparse library's own error at the first operation
whose operand shapes mismatch.  For a non-square relation matrix that is
the initial Hadamard multiply `S.multiply(S.T)`, reached before any
matrix product; for a square relation matrix with an interaction matrix
of mismatching row count, it is `A8 = (Y.dot(Y.T)).multiply(B)`, reached
only after the 17 structural motif products and `Y.dot(Y.T)` (18 products
in total) have been computed, whatever the stored entries are. -/
theorem c8_shape_error_order (f g : ℕ → ℕ → ℚ) :
    buildMotifAdj ⟨2, 3, f⟩ ⟨3, 2, g⟩ 0
        = (0, Except.error "inconsistent shapes") ∧
      buildMotifAdj ⟨2, 2, f⟩ ⟨3, 2, g⟩ 0
        = (18, Except.error "inconsistent shapes") := by
  exact ⟨rfl, rfl⟩

/-! ## `decode_greedy` (mhim.py lines 684-710).

The per-step logits pipeline (decoder transformer, user projection, copy
projection, mask) ends in an argmax producing one predicted token per
batch row; that whole pipeline is abstracted as `dec`, mapping the
current sequences to the vector of predicted next tokens.  The loop
structure — `for i in range(self.longest_label)`, append one token per
row, break once every row contains the end token — is embedded
literally. -/

/-- One iteration of the greedy loop: `xs = torch.cat([xs, preds], dim=1)`
(mhim.py line 704). -/
def decodeStep (dec : List (List ℕ) → List ℕ) (xs : List (List ℕ)) :
    List (List ℕ) :=
  List.zipWith (fun s t => s ++ [t]) xs (dec xs)

/-- `all_finished` (mhim.py line 706): every row of the batch contains an
end token. -/
def allFinished (endTok : ℕ) (xs : List (List ℕ)) : Bool :=
  xs.all fun s => s.contains endTok

/-- The loop of `decode_greedy` (mhim.py lines 689-708): at most
`longest_label` (the fuel) iterations, breaking at the end of the first
iteration after which every row has an end token.  Returns the final
sequences and the number of iterations executed. -/
def decodeGreedy (dec : List (List ℕ) → List ℕ) (endTok : ℕ) :
    ℕ → List (List ℕ) → List (List ℕ) × ℕ
  | 0, xs => (xs, 0)
  | fuel + 1, xs =>
    let xs2 := decodeStep dec xs
    if allFinished endTok xs2 then (xs2, 1)
    else
      let r := decodeGreedy dec endTok fuel xs2
      (r.1, r.2 + 1)

/-- The greedy loop runs at most `fuel` iterations. -/
theorem decodeGreedy_le (dec : List (List ℕ) → List ℕ) (endTok : ℕ) :
    ∀ (fuel : ℕ) (xs : List (List ℕ)),
      (decodeGreedy dec endTok fuel xs).2 ≤ fuel := by
  intro fuel
  induction fuel with
  | zero => intro xs; simp [decodeGreedy]
  | succ fuel ih =>
      intro xs
      simp only [decodeGreedy]
      split
      · simp
      · simpa using ih (decodeStep dec xs)

/-- Appending one token to each row preserves the head of every row. -/
theorem decodeStep_heads (st : ℕ) :
    ∀ (xs : List (List ℕ)) (ts : List ℕ),
      (∀ s ∈ xs, s.head? = some st) →
      ∀ s ∈ List.zipWith (fun s t => s ++ [t]) xs ts, s.head? = some st := by
  intro xs
  induction xs with
  | nil => simp
  | cons x xs ih =>
      intro ts h s hs
      cases ts with
      | nil => simp at hs
      | cons t ts =>
          simp only [List.zipWith_cons_cons, List.mem_cons] at hs
          rcases hs with rfl | hs
          · have hx := h x (by simp)
            cases x with
            | nil => simp at hx
            | cons a x => simpa using hx
          · exact ih ts (fun u hu => h u (by simp [hu])) s hs

/-- Every row of the greedy loop's result keeps its initial head. -/
theorem decodeGreedy_heads (dec : List (List ℕ) → List ℕ) (endTok st : ℕ) :
    ∀ (fuel : ℕ) (xs : List (List ℕ)),
      (∀ s ∈ xs, s.head? = some st) →
      ∀ s ∈ (decodeGreedy dec endTok fuel xs).1, s.head? = some st := by
  intro fuel
  induction fuel with
  | zero => intro xs h; simpa [decodeGreedy] using h
  | succ fuel ih =>
      intro xs h
      simp only [decodeGreedy]
      split
      · exact decodeStep_heads st xs (dec xs) h
      · exact ih (decodeStep dec xs) (decodeStep_heads st xs (dec xs) h)

/-- The greedy loop halts as soon as every row has an end token: if after
`k ≥ 1` iterations all rows are finished (and `k` is within the fuel),
the loop executes at most `k` iterations. -/
theorem decodeGreedy_early (dec : List (List ℕ) → List ℕ) (endTok : ℕ) :
    ∀ (fuel : ℕ) (xs : List (List ℕ)) (k : ℕ), 0 < k → k ≤ fuel →
      allFinished endTok ((decodeStep dec)^[k] xs) = true →
      (decodeGreedy dec endTok fuel xs).2 ≤ k := by
  intro fuel
  induction fuel with
  | zero => intro xs k hk hle _; omega
  | succ fuel ih =>
      intro xs k hk hle hfin
      simp only [decodeGreedy]
      split
      · simpa using hk
      · rename_i hnot
        cases k with
        | zero => omega
        | succ k =>
            cases k with
            | zero =>
                rw [Function.iterate_one] at hfin
                exact absurd hfin (by simpa using hnot)
            | succ k =>
                have hit :
                    (decodeStep dec)^[k + 1] (decodeStep dec xs)
                      = (decodeStep dec)^[k + 1 + 1] xs := by
                  simp only [Function.iterate_succ_apply]
                have := ih (decodeStep dec xs) (k + 1) (by omega) (by omega)
                  (by rw [hit]; exact hfin)
                simpa using Nat.add_le_add_right this 1

/-- C10: greedy decoding starting from one start token per batch row
(i) executes at most `longest_label` iterations, (ii) returns sequences
that all begin with the start token, and (iii) halts at iteration `k`
or earlier whenever after `k` iterations every row contains an end token
— for every decoder pipeline, token configuration, batch size and
maximum length. -/
theorem c10_decode_greedy (dec : List (List ℕ) → List ℕ)
    (startTok endTok fuel bsz : ℕ) :
    (decodeGreedy dec endTok fuel (List.replicate bsz [startTok])).2 ≤ fuel ∧
      (∀ s ∈ (decodeGreedy dec endTok fuel (List.replicate bsz [startTok])).1,
        s.head? = some startTok) ∧
      (∀ k, 0 < k → k ≤ fuel →
        allFinished endTok
            ((decodeStep dec)^[k] (List.replicate bsz [startTok])) = true →
        (decodeGreedy dec endTok fuel (List.replicate bsz [startTok])).2 ≤ k) :=
  ⟨decodeGreedy_le dec endTok fuel (List.replicate bsz [startTok]),
    decodeGreedy_heads dec endTok startTok fuel (List.replicate bsz [startTok])
      (by intro s hs; rw [List.eq_of_mem_replicate hs]; rfl),
    fun k hk hle hfin =>
      decodeGreedy_early dec endTok fuel (List.replicate bsz [startTok])
        k hk hle hfin⟩

/-- C10 witness: `c10_decode_greedy` for a batch of 2 rows, start token 5,
end token 9, maximum length 3, and a decoder that always predicts 9:
after one iteration every row is finished, so at most one iteration runs. -/
theorem c10_witness :
    (decodeGreedy (fun xs => xs.map fun _ => 9) 9 3
        (List.replicate 2 [5])).2 ≤ 1 :=
  (c10_decode_greedy (fun xs => xs.map fun _ => 9) 5 9 3 2).2.2 1
    (by decide) (by decide) (by decide)
